import Mathlib

/-!
Verification of the accessibility-auditor core against its specification.

The development shallowly embeds the three core components of the system:

* the Result Combiner (`src/src/analyzer/combiner.js`): `combineResults`,
  `inferWCAGTags`, `calculateWCAGCoverage`, `calculateComplianceScore`,
  `generateSummary`;
* the Fetch Coordinator retry loop (`puppeteer-scraper.js`): `withRetry`,
  `DEFAULT_RETRY_OPTIONS`, `scrapePage`;
* the job-dispatch layer (`api-handler.ts`, `audit-consumer.ts`, `sqs.ts`):
  submission handlers, the SQS consumer handler and `processRecord`,
  with the queue, the DynamoDB store and the audit pipeline modelled as
  explicit state / oracle functions.

JavaScript numbers are modelled as `Nat`/`Int`/`Rat` (the quantities involved
are small integers and exactly-representable ratios far from any rounding
boundary of `Math.round`); fallible code returns `Except`.
-/

deriving instance DecidableEq for Except

/-- JS `String.prototype.includes`: substring test. -/
def strIncludes (hay needle : String) : Bool :=
  decide (needle.data <:+: hay.data)

/-- Prefix test on character lists (JS `String.prototype.startsWith`). -/
def listIsPrefixC : List Char → List Char → Bool
  | [], _ => true
  | _ :: _, [] => false
  | a :: as, b :: bs => a == b && listIsPrefixC as bs

/-- JS `t.startsWith('wcag')`. -/
def startsWithWcag (t : String) : Bool :=
  listIsPrefixC "wcag".data t.data

/-- One node sample attached to a rule-engine violation. -/
structure AxeNode where
  html : String
  target : List String
  failureSummary : String
deriving DecidableEq

/-- A raw violation produced by the axe-core rule engine.  `impact` is
`Option` because the JS object may lack the field (falsy → defaulted). -/
structure AxeViolation where
  id : String
  impact : Option String
  description : String
  help : String
  helpUrl : String
  tags : List String
  nodes : List AxeNode
deriving DecidableEq

/-- A raw semantic violation produced by the LLM analyzer.  `severity` is
`Option` because the JS object may lack the field. -/
structure LLMViolation where
  type : String
  severity : Option String
  description : String
  recommendation : String
  examples : Option (List String)
deriving DecidableEq

/-- Normalized example sample (axe branch): html, joined selector path,
failure text. -/
structure AxeExample where
  html : String
  target : String
  failureSummary : String
deriving DecidableEq

/-- The unified violation shape built by `combineResults`.  Fields that only
one source sets are `Option` / defaulted exactly as the JS object literals
leave them. -/
structure NormViolation where
  source : String
  id : Option String
  type : String
  impact : String
  description : String
  help : Option String
  helpUrl : Option String
  wcagTags : List String
  nodes : Option Nat
  axeExamples : List AxeExample
  llmExamples : List String
  recommendation : String
  isSemanticIssue : Bool
deriving DecidableEq

/-- `combined.summary` of the combiner.  Besides the documented counters we
track the pathological JS-object effects of `summary[key]++` on keys that are
not severity counters: `sourcesCorrupted` records that the `sources` object
was overwritten by `NaN` (after which the per-source increments silently
no-op), and `strayKeys` records own keys created by increments of unknown
severities in the axe branch (these make `summary[key] !== undefined` true
for later lookups). -/
structure SummaryCounts where
  totalViolations : Nat
  critical : Nat
  serious : Nat
  moderate : Nat
  minor : Nat
  axeCore : Nat
  llm : Nat
  sourcesCorrupted : Bool
  strayKeys : List String
deriving DecidableEq

/-- The summary object as initialised at the top of `combineResults`. -/
def initSummary : SummaryCounts :=
  { totalViolations := 0, critical := 0, serious := 0, moderate := 0
    minor := 0, axeCore := 0, llm := 0, sourcesCorrupted := false
    strayKeys := [] }

/-- `inferWCAGTags` of combiner.js: fixed lookup from semantic category to
wcag tag list; unknown categories map to the empty list. -/
def inferWCAGTags (violationType : String) : List String :=
  if violationType = "unclear-link-text" then ["wcag244", "wcag249"]
  else if violationType = "complex-language" then ["wcag315"]
  else if violationType = "poor-heading-structure" then ["wcag131", "wcag246"]
  else if violationType = "missing-context" then ["wcag332", "wcag333"]
  else if violationType = "ambiguous-labels" then ["wcag332", "wcag244", "wcag246"]
  else if violationType = "confusing-navigation" then ["wcag241", "wcag244"]
  else if violationType = "missing-alt-text" then ["wcag111"]
  else if violationType = "low-color-contrast" then ["wcag143"]
  else if violationType = "missing-form-labels" then ["wcag332", "wcag131"]
  else []

/-- Normalization of one axe violation (the object pushed by the axe branch
of `combineResults`); `v.impact || 'moderate'` defaults missing/empty. -/
def normalizeAxe (v : AxeViolation) : NormViolation :=
  { source := "axe-core"
    id := some v.id
    type := v.id
    impact :=
      match v.impact with
      | none => "moderate"
      | some s => if s = "" then "moderate" else s
    description := v.description
    help := some v.help
    helpUrl := some v.helpUrl
    wcagTags := v.tags.filter (fun t => startsWithWcag t)
    nodes := some v.nodes.length
    axeExamples := (v.nodes.take 3).map
      (fun n => ⟨n.html, String.intercalate " > " n.target, n.failureSummary⟩)
    llmExamples := []
    recommendation := v.help
    isSemanticIssue := false }

/-- Normalization of one semantic violation; `lowered` is
`v.severity.toLowerCase()` (the caller has already established the field is
present, otherwise the combiner throws). -/
def normalizeLLM (v : LLMViolation) (lowered : String) : NormViolation :=
  { source := "llm"
    id := none
    type := v.type
    impact := lowered
    description := v.description
    help := none
    helpUrl := none
    wcagTags := inferWCAGTags v.type
    nodes := none
    axeExamples := []
    llmExamples := match v.examples with | none => [] | some es => es
    recommendation := v.recommendation
    isSemanticIssue := true }

/-- `combined.summary[v.impact]++` followed by `totalViolations++` and
`sources.axeCore++` in the axe branch.  The raw (undefaulted) impact is used
for the counter lookup, exactly as in the source. -/
def axeSummaryStep (s : SummaryCounts) (impact : Option String) : SummaryCounts :=
  let s1 :=
    match impact with
    | some "critical" => { s with critical := s.critical + 1 }
    | some "serious" => { s with serious := s.serious + 1 }
    | some "moderate" => { s with moderate := s.moderate + 1 }
    | some "minor" => { s with minor := s.minor + 1 }
    | some "totalViolations" => { s with totalViolations := s.totalViolations + 1 }
    | some "sources" => { s with sourcesCorrupted := true }
    | some k => { s with strayKeys := if k ∈ s.strayKeys then s.strayKeys else s.strayKeys ++ [k] }
    | none => { s with strayKeys := if "undefined" ∈ s.strayKeys then s.strayKeys else s.strayKeys ++ ["undefined"] }
  let s2 := { s1 with totalViolations := s1.totalViolations + 1 }
  if s2.sourcesCorrupted then s2 else { s2 with axeCore := s2.axeCore + 1 }

/-- The llm-branch counter update: `if (summary[severity] !== undefined)
summary[severity]++ else summary.moderate++`, then `totalViolations++` and
`sources.llm++`.  The lookup is defined for the four severity counters, the
own keys `totalViolations` and `sources`, the all-lowercase inherited object
keys `constructor` and `__proto__`, and any stray key created earlier. -/
def llmSummaryStep (s : SummaryCounts) (lowered : String) : SummaryCounts :=
  let s1 :=
    if lowered = "critical" then { s with critical := s.critical + 1 }
    else if lowered = "serious" then { s with serious := s.serious + 1 }
    else if lowered = "moderate" then { s with moderate := s.moderate + 1 }
    else if lowered = "minor" then { s with minor := s.minor + 1 }
    else if lowered = "totalViolations" then { s with totalViolations := s.totalViolations + 1 }
    else if lowered = "sources" then { s with sourcesCorrupted := true }
    else if lowered = "constructor" ∨ lowered = "__proto__" ∨ lowered ∈ s.strayKeys then s
    else { s with moderate := s.moderate + 1 }
  let s2 := { s1 with totalViolations := s1.totalViolations + 1 }
  if s2.sourcesCorrupted then s2 else { s2 with llm := s2.llm + 1 }

/-- The axe-branch loop of `combineResults`: pushes the normalized violation
and updates the summary, in input order. -/
def processAxe : List AxeViolation → List NormViolation × SummaryCounts →
    List NormViolation × SummaryCounts
  | [], acc => acc
  | v :: vs, (l, s) => processAxe vs (l ++ [normalizeAxe v], axeSummaryStep s v.impact)

/-- The llm-branch loop of `combineResults`.  A missing `severity` field
makes `v.severity.toLowerCase()` throw a `TypeError`, which aborts the whole
call; this is the only way the combiner can fail. -/
def processLLM : List LLMViolation → List NormViolation × SummaryCounts →
    Except String (List NormViolation × SummaryCounts)
  | [], acc => Except.ok acc
  | v :: vs, (l, s) =>
    match v.severity with
    | none => Except.error "TypeError: Cannot read properties of undefined reading toLowerCase"
    | some sev =>
      let lowered := sev.toLower
      processLLM vs (l ++ [normalizeLLM v lowered], llmSummaryStep s lowered)

/-- Attempted match of the regex `wcag(\d)(\d)(\d)` at the head of the
character list: the literal `wcag` followed by three digit captures. -/
def wcagMatchAt : List Char → Option (Char × Char × Char)
  | 'w' :: 'c' :: 'a' :: 'g' :: d1 :: d2 :: d3 :: _ =>
      if d1.isDigit && d2.isDigit && d3.isDigit then some (d1, d2, d3) else none
  | _ => none

/-- First-match search of `wcag(\d)(\d)(\d)`: try each start position left to
right, as `String.prototype.match` does for an unanchored regex. -/
def wcagScan : List Char → Option (Char × Char × Char)
  | [] => none
  | c :: rest =>
    match wcagMatchAt (c :: rest) with
    | some r => some r
    | none => wcagScan rest

/-- `tag.match(/wcag(\d)(\d)(\d)/)` followed by the template
`match1.match2.match3`: the dotted criterion recorded for a tag, if any. -/
def tagToCriterion (tag : String) : Option String :=
  (wcagScan tag.data).map (fun t => String.mk [t.1, '.', t.2.1, '.', t.2.2])

/-- `Set.prototype.add` on a list model: append if not already present. -/
def addTag (acc : List String) (t : String) : List String :=
  if t ∈ acc then acc else acc ++ [t]

/-- Inner loop of the `foundTags` computation: fold the criteria extracted
from one tag list into the accumulated set. -/
def criterionFold (acc : List String) (tags : List String) : List String :=
  tags.foldl
    (fun acc2 tag =>
      match tagToCriterion tag with
      | some c => addTag acc2 c
      | none => acc2)
    acc

/-- The `foundTags` set of `calculateWCAGCoverage`: every criterion extracted
from any violation wcag tag, deduplicated. -/
def foundTags (viols : List NormViolation) : List String :=
  viols.foldl (fun acc v => criterionFold acc v.wcagTags) []

/-- The WCAG 2.1 level-A success-criterion table of combiner.js. -/
def wcagGuidelinesA : List String :=
  ["1.1.1", "1.2.1", "1.2.2", "1.2.3", "1.3.1", "1.3.2", "1.3.3",
   "1.4.1", "1.4.2", "2.1.1", "2.1.2", "2.1.4", "2.2.1", "2.2.2",
   "2.3.1", "2.4.1", "2.4.2", "2.4.3", "2.4.4", "2.5.1", "2.5.2",
   "2.5.3", "2.5.4", "3.1.1", "3.2.1", "3.2.2", "3.3.1", "3.3.2",
   "4.1.1", "4.1.2", "4.1.3"]

/-- The WCAG 2.1 level-AA success-criterion table of combiner.js. -/
def wcagGuidelinesAA : List String :=
  ["1.2.4", "1.2.5", "1.3.4", "1.3.5", "1.4.3", "1.4.4", "1.4.5",
   "1.4.10", "1.4.11", "1.4.12", "1.4.13", "2.4.5", "2.4.6", "2.4.7",
   "2.5.5", "2.5.6", "3.1.2", "3.2.3", "3.2.4", "3.3.3", "3.3.4"]

/-- The WCAG 2.1 level-AAA success-criterion table of combiner.js. -/
def wcagGuidelinesAAA : List String :=
  ["1.2.6", "1.2.7", "1.2.8", "1.2.9", "1.4.6", "1.4.7", "1.4.8",
   "1.4.9", "2.1.3", "2.2.3", "2.2.4", "2.2.5", "2.2.6", "2.3.2",
   "2.3.3", "2.4.8", "2.4.9", "2.4.10", "2.5.5", "2.5.6", "3.1.3",
   "3.1.4", "3.1.5", "3.1.6", "3.2.5", "3.3.5", "3.3.6"]

/-- `Math.round` on the (nonnegative, far-from-tie) ratios the combiner
produces: round half towards positive infinity. -/
def jsRound (q : ℚ) : Int := Int.floor (q + 1 / 2)

/-- Per-level body of `calculateWCAGCoverage`:
`Math.round(((total - violated) / total) * 100)`, computed in integer
arithmetic: for `0 ≤ a` and `0 < t`, `round(100a/t) = (200a + t) / (2t)`
in floor division (`levelCoverage_eq_jsRound` below proves the agreement
with the rational `Math.round` form). -/
def levelCoverage (table : List String) (tags : List String) : Int :=
  let total := table.length
  let violated := (table.filter (fun g => g ∈ tags)).length
  ((200 * (total - violated) + total) / (2 * total) : Nat)

/-- The coverage record `{A, AA, AAA}` returned by `calculateWCAGCoverage`. -/
structure WcagCoverage where
  A : Int
  AA : Int
  AAA : Int
deriving DecidableEq

/-- `calculateWCAGCoverage` of combiner.js. -/
def calculateWCAGCoverage (viols : List NormViolation) : WcagCoverage :=
  let tags := foundTags viols
  { A := levelCoverage wcagGuidelinesA tags
    AA := levelCoverage wcagGuidelinesAA tags
    AAA := levelCoverage wcagGuidelinesAAA tags }

/-- `calculateComplianceScore` of combiner.js: start at 100, add the
severity-weighted counts, clamp to [0, 100]. -/
def calculateComplianceScore (s : SummaryCounts) : Int :=
  max 0 (min 100 (100 + (s.critical : Int) * (-10) + (s.serious : Int) * (-5)
    + (s.moderate : Int) * (-2) + (s.minor : Int) * (-1)))

/-- The severity rank used by the sort comparator
`severityOrder[a.impact] - severityOrder[b.impact]`; `none` models the
undefined lookup for impacts outside the four known severities. -/
def severityOrder (s : String) : Option Nat :=
  if s = "critical" then some 0
  else if s = "serious" then some 1
  else if s = "moderate" then some 2
  else if s = "minor" then some 3
  else none

/-- Total sort key.  For an impact outside the four severities the JS
comparator returns `NaN` and the engine result is unspecified; the default
here is an arbitrary modelling choice and every theorem about the order
restricts to violations whose impact has a defined rank. -/
def sortKey (v : NormViolation) : Nat := (severityOrder v.impact).getD 2

/-- Stable insertion of a violation before the first strictly-greater key. -/
def sortInsert (x : NormViolation) : List NormViolation → List NormViolation
  | [] => [x]
  | y :: ys => if sortKey x ≤ sortKey y then x :: y :: ys else y :: sortInsert x ys

/-- `violations.sort(comparator)`: ES2019 `Array.prototype.sort` is stable,
so for a consistent numeric comparator it computes the unique stable sort by
key, here realised as insertion sort. -/
def sortBySeverity : List NormViolation → List NormViolation
  | [] => []
  | x :: xs => sortInsert x (sortBySeverity xs)

/-- The combined report object returned by `combineResults`. -/
structure CombinedReport where
  summary : SummaryCounts
  violations : List NormViolation
  wcagCoverage : WcagCoverage
  complianceScore : Int
deriving DecidableEq

/-- `combineResults(axeResults, llmResults)` of combiner.js.  An argument of
`none` models a falsy `axeResults` / missing `violations` array (that branch
is skipped).  Coverage and score are computed before the in-place sort, from
the same violation list. -/
def combineResults (axeResults : Option (List AxeViolation))
    (llmResults : Option (List LLMViolation)) : Except String CombinedReport :=
  let acc0 := (([] : List NormViolation), initSummary)
  let acc1 :=
    match axeResults with
    | none => acc0
    | some vs => processAxe vs acc0
  match (match llmResults with
         | none => Except.ok acc1
         | some vs => processLLM vs acc1) with
  | Except.error e => Except.error e
  | Except.ok (viols, s) =>
      Except.ok
        { summary := s
          violations := sortBySeverity viols
          wcagCoverage := calculateWCAGCoverage viols
          complianceScore := calculateComplianceScore s }

/-- `getRecommendation` of combiner.js (summary argument kept but unused, as
in the source). -/
def getRecommendation (_s : SummaryCounts) (score : Int) : String :=
  if score ≥ 90 then
    "Excellent! Your site has strong accessibility compliance. Focus on addressing the remaining minor issues."
  else if score ≥ 70 then
    "Good progress, but improvements needed. Prioritize fixing critical and serious violations."
  else if score ≥ 50 then
    "Moderate accessibility. Significant work required to meet WCAG standards. Start with critical violations."
  else
    "Poor accessibility. Immediate action required. This site likely violates ADA/Section 508 requirements."

/-- The summary report of `generateSummary`. -/
structure SummaryReport where
  overallScore : Int
  complianceLevel : String
  totalIssues : Nat
  criticalIssues : Nat
  recommendation : String
deriving DecidableEq

/-- `generateSummary` of combiner.js: compliance-level label bands evaluated
highest first, each inclusive at 90. -/
def generateSummary (c : CombinedReport) : SummaryReport :=
  let level :=
    if c.wcagCoverage.AAA ≥ 90 then "AAA"
    else if c.wcagCoverage.AA ≥ 90 then "AA"
    else if c.wcagCoverage.A ≥ 90 then "A"
    else "Not Compliant"
  { overallScore := c.complianceScore
    complianceLevel := level
    totalIssues := c.summary.totalViolations
    criticalIssues := c.summary.critical
    recommendation := getRecommendation c.summary c.complianceScore }

/-! ### Fetch Coordinator: the retry loop of puppeteer-scraper.js -/

/-- Outcome of one call of the wrapped operation (the oracle describes what
`fn()` does on each attempt number). -/
inductive CallOutcome (α : Type) where
  | ok (v : α)
  | err (msg : String)
deriving DecidableEq

/-- The retry options object of the scraper. -/
structure RetryOptions where
  maxRetries : Nat
  baseDelay : Nat
  maxDelay : Nat
  backoffMultiplier : Nat
  retryableErrors : List String
deriving DecidableEq

/-- `DEFAULT_RETRY_OPTIONS` of puppeteer-scraper.js. -/
def DEFAULT_RETRY_OPTIONS : RetryOptions :=
  { maxRetries := 3
    baseDelay := 1000
    maxDelay := 10000
    backoffMultiplier := 2
    retryableErrors :=
      ["net::ERR_CONNECTION_RESET",
       "net::ERR_CONNECTION_REFUSED",
       "net::ERR_CONNECTION_TIMED_OUT",
       "net::ERR_NAME_NOT_RESOLVED",
       "Navigation timeout",
       "Protocol error",
       "ECONNREFUSED",
       "ETIMEDOUT"] }

/-- `retryableErrors.some(e => error.message.includes(e))`. -/
def isRetryableError (opts : RetryOptions) (msg : String) : Bool :=
  opts.retryableErrors.any (fun e => strIncludes msg e)

/-- Result of `_withRetry`: the value or the last error, together with the
number of attempts made and the list of backoff delays awaited (in order). -/
inductive RetryResult (α : Type) where
  | success (v : α) (attemptsMade : Nat) (delays : List Nat)
  | failure (msg : String) (attemptsMade : Nat) (delays : List Nat)
deriving DecidableEq

/-- The body of the `for (attempt = 1; attempt <= maxRetries; attempt++)`
loop.  `fuel` is the number of remaining iterations
(`maxRetries - attempt + 1`); the `fuel = 0` case models the JS loop exiting
without returning (reachable only when `maxRetries = 0`, where the JS
function returns `undefined`). -/
def withRetryGo (opts : RetryOptions) (calls : Nat → CallOutcome α) :
    Nat → Nat → List Nat → RetryResult α
  | _, 0, delays => RetryResult.failure "undefined" 0 delays
  | attempt, fuel + 1, delays =>
    match calls attempt with
    | CallOutcome.ok v => RetryResult.success v attempt delays
    | CallOutcome.err msg =>
      if attempt = opts.maxRetries ∨ ¬isRetryableError opts msg then
        RetryResult.failure msg attempt delays
      else
        let delay := min (opts.baseDelay * opts.backoffMultiplier ^ (attempt - 1)) opts.maxDelay
        withRetryGo opts calls (attempt + 1) fuel (delays ++ [delay])

/-- `_withRetry(fn)` of puppeteer-scraper.js. -/
def withRetry (opts : RetryOptions) (calls : Nat → CallOutcome α) : RetryResult α :=
  withRetryGo opts calls 1 opts.maxRetries []

/-- `scrapePage(url)` simply wraps the core scrape in `_withRetry`. -/
def scrapePage (opts : RetryOptions) (core : Nat → CallOutcome α) : RetryResult α :=
  withRetry opts core

/-! ### Job dispatch layer: api-handler.ts, sqs.ts, audit-consumer.ts

The DynamoDB table is modelled as a list of records keyed by `auditId`
(`put` overwrites the item with the same key), the SQS queue as a list of
messages paired with their `DelaySeconds`, and the audit pipeline
(`jobManager.auditWebsite`) as an oracle from the url to either a summary or
a thrown error.  Timestamps, durations and the full results payload are
carried opaquely (`scannedAt` string, `resultsEmpty` flag for the
`results: {}` of a pending record). -/

/-- A persisted audit record (dynamodb.ts `AuditRecord`, reduced to the
fields the claims mention; `resultsEmpty` models `results: {}`). -/
structure AuditRecordM where
  auditId : String
  url : String
  scannedAt : String
  score : Int
  complianceLevel : String
  totalIssues : Nat
  criticalIssues : Nat
  resultsEmpty : Bool
deriving DecidableEq

/-- `saveAuditReport` / DynamoDB `put`: overwrite the item with the same
key, else append. -/
def storePut (st : List AuditRecordM) (r : AuditRecordM) : List AuditRecordM :=
  if st.any (fun x => x.auditId = r.auditId) then
    st.map (fun x => if x.auditId = r.auditId then r else x)
  else st ++ [r]

/-- `getAuditReport` / DynamoDB `get` by key. -/
def storeGet (st : List AuditRecordM) (k : String) : Option AuditRecordM :=
  st.find? (fun x => x.auditId = k)

/-- An SQS audit job message (sqs.ts `AuditJobMessage`). -/
structure AuditJobMessage where
  jobId : String
  url : String
  skipLLM : Bool
  priority : Option String
  callbackUrl : Option String
  submittedAt : String
deriving DecidableEq

/-- `enqueueAuditJob`: append the message with its `DelaySeconds`
(30 for low priority, else 0) and return the message id.  The offline path
returns `job.jobId`; on real SQS the returned `MessageId` may differ from
the jobId, which only strengthens the C4 counterexample below. -/
def enqueueAuditJob (q : List (AuditJobMessage × Nat)) (job : AuditJobMessage) :
    List (AuditJobMessage × Nat) × String :=
  (q ++ [(job, if job.priority = some "low" then 30 else 0)], job.jobId)

/-- The fan-out loop of `enqueueBatchAuditJobs`, with `i` the running index
used to build `jobId = batchId-i`. -/
def enqueueBatchGo (batchId : String) (skipLLM : Bool) (submittedAt : String) :
    List (AuditJobMessage × Nat) → List String → Nat →
    List (AuditJobMessage × Nat) × List String
  | q, [], _ => (q, [])
  | q, url :: rest, i =>
    let job : AuditJobMessage :=
      { jobId := batchId ++ "-" ++ toString i
        url := url
        skipLLM := skipLLM
        priority := none
        callbackUrl := none
        submittedAt := submittedAt }
    let step1 := enqueueAuditJob q job
    let step2 := enqueueBatchGo batchId skipLLM submittedAt step1.1 rest (i + 1)
    (step2.1, step1.2 :: step2.2)

/-- `enqueueBatchAuditJobs` of sqs.ts: one message per url, no store write. -/
def enqueueBatchAuditJobs (q : List (AuditJobMessage × Nat)) (batchId : String)
    (urls : List String) (skipLLM : Bool) (submittedAt : String) :
    List (AuditJobMessage × Nat) × List String :=
  enqueueBatchGo batchId skipLLM submittedAt q urls 0

/-- HTTP responses of the submission endpoints (reduced to the shape the
claims mention). -/
inductive ApiResponse where
  | badRequest (error : String)
  | accepted (jobId : String) (statusUrl : String)
  | acceptedBatch (batchId : String) (jobIds : List String)
deriving DecidableEq

/-- The pending record written by POST /api/audit before acknowledging. -/
def pendingRecord (jobId url now : String) : AuditRecordM :=
  { auditId := jobId
    url := url
    scannedAt := now
    score := 0
    complianceLevel := "pending"
    totalIssues := 0
    criticalIssues := 0
    resultsEmpty := true }

/-- The POST /api/audit branch of api-handler.ts.  `urlOpt` is the parsed
body field (`none` = absent), `urlValid` is the oracle for `new URL(url)`,
`jobId`/`now` stand for the generated id and timestamps.  On acceptance the
pending record is stored, then the job is enqueued, then 202 is returned. -/
def postAudit (st : List AuditRecordM) (q : List (AuditJobMessage × Nat))
    (urlOpt : Option String) (urlValid : Bool) (skipLLM : Bool) (jobId now : String) :
    List AuditRecordM × List (AuditJobMessage × Nat) × ApiResponse :=
  match urlOpt with
  | none => (st, q, ApiResponse.badRequest "URL is required")
  | some url =>
    if url = "" then (st, q, ApiResponse.badRequest "URL is required")
    else if ¬urlValid then (st, q, ApiResponse.badRequest "Invalid URL format")
    else
      let st1 := storePut st (pendingRecord jobId url now)
      let q1 := (enqueueAuditJob q
        { jobId := jobId, url := url, skipLLM := skipLLM
          priority := none, callbackUrl := none, submittedAt := now }).1
      (st1, q1, ApiResponse.accepted jobId ("/api/audit/" ++ jobId))

/-- The POST /api/audit/batch branch of api-handler.ts: validation, then
fan-out enqueue; no pending records are written for batch jobs. -/
def postAuditBatch (st : List AuditRecordM) (q : List (AuditJobMessage × Nat))
    (urlsOpt : Option (List String)) (skipLLM : Bool) (batchId now : String) :
    List AuditRecordM × List (AuditJobMessage × Nat) × ApiResponse :=
  match urlsOpt with
  | none => (st, q, ApiResponse.badRequest "URLs array is required")
  | some urls =>
    if urls.length = 0 then (st, q, ApiResponse.badRequest "URLs array is required")
    else if urls.length > 10 then (st, q, ApiResponse.badRequest "Batch limited to 10 URLs")
    else
      let out := enqueueBatchAuditJobs q batchId urls skipLLM now
      (st, out.1, ApiResponse.acceptedBatch batchId out.2)

/-- What the audit pipeline produced for a url: the summary fields copied
into the stored record. -/
structure PipelineSummary where
  scannedAt : String
  overallScore : Int
  complianceLevel : String
  totalIssues : Nat
  criticalIssues : Nat
deriving DecidableEq

/-- One SQS record delivered to the consumer, with the parsed job body.
A JSON.parse failure of the body behaves exactly like a pipeline throw for
the store and failure accounting, so both are covered by the `pipeline`
oracle erroring for that record. -/
structure SQSRecordM where
  messageId : String
  job : AuditJobMessage
deriving DecidableEq

/-- The record persisted by `processRecord` on success. -/
def mkAuditRecord (job : AuditJobMessage) (out : PipelineSummary) : AuditRecordM :=
  { auditId := job.jobId
    url := job.url
    scannedAt := out.scannedAt
    score := out.overallScore
    complianceLevel := out.complianceLevel
    totalIssues := out.totalIssues
    criticalIssues := out.criticalIssues
    resultsEmpty := false }

/-- `processRecord` of audit-consumer.ts: run the pipeline, then persist the
completed record.  A pipeline throw propagates and leaves the store
untouched; no failure path writes to the store. -/
def processRecordM (pipeline : String → Except String PipelineSummary)
    (st : List AuditRecordM) (r : SQSRecordM) : Except String (List AuditRecordM) :=
  match pipeline r.job.url with
  | Except.error e => Except.error e
  | Except.ok out => Except.ok (storePut st (mkAuditRecord r.job out))

/-- The per-record loop of the consumer handler: on a throw the message id
is appended to `failures` and the store keeps its previous value. -/
def consumerLoop (pipeline : String → Except String PipelineSummary)
    (st : List AuditRecordM) : List SQSRecordM → List AuditRecordM × List String
  | [] => (st, [])
  | r :: rs =>
    match processRecordM pipeline st r with
    | Except.error _ =>
      ((consumerLoop pipeline st rs).1, r.messageId :: (consumerLoop pipeline st rs).2)
    | Except.ok st1 => consumerLoop pipeline st1 rs

/-- The SQS consumer `handler` of audit-consumer.ts: if the shared
initialization fails every message id is reported failed (no record was
attempted); otherwise the loop reports exactly the ids whose processing
threw, as `batchItemFailures`. -/
def consumerHandler (initResult : Except String Unit)
    (pipeline : String → Except String PipelineSummary)
    (st : List AuditRecordM) (records : List SQSRecordM) :
    List AuditRecordM × List String :=
  match initResult with
  | Except.error _ => (st, records.map (fun r => r.messageId))
  | Except.ok _ => consumerLoop pipeline st records

/-! ### Inversion lemmas for `combineResults` -/

/-- The accumulator state after the axe branch of `combineResults`. -/
def axeAcc (a : Option (List AxeViolation)) : List NormViolation × SummaryCounts :=
  match a with
  | none => ([], initSummary)
  | some vs => processAxe vs ([], initSummary)

/-- The accumulator state after the llm branch of `combineResults`. -/
def llmAcc (l : Option (List LLMViolation)) (acc : List NormViolation × SummaryCounts) :
    Except String (List NormViolation × SummaryCounts) :=
  match l with
  | none => Except.ok acc
  | some vs => processLLM vs acc

theorem combineResults_eq (a : Option (List AxeViolation)) (l : Option (List LLMViolation)) :
    combineResults a l =
      match llmAcc l (axeAcc a) with
      | Except.error e => Except.error e
      | Except.ok (viols, s) =>
        Except.ok
          { summary := s
            violations := sortBySeverity viols
            wcagCoverage := calculateWCAGCoverage viols
            complianceScore := calculateComplianceScore s } := by
  cases a <;> cases l <;> rfl

theorem combineResults_ok_inv {a : Option (List AxeViolation)}
    {l : Option (List LLMViolation)} {r : CombinedReport}
    (h : combineResults a l = Except.ok r) :
    ∃ viols, llmAcc l (axeAcc a) = Except.ok (viols, r.summary) ∧
      r.violations = sortBySeverity viols ∧
      r.wcagCoverage = calculateWCAGCoverage viols ∧
      r.complianceScore = calculateComplianceScore r.summary := by
  rw [combineResults_eq] at h
  cases hll : llmAcc l (axeAcc a) with
  | error e => rw [hll] at h; exact absurd h (by simp)
  | ok p =>
    obtain ⟨viols, s⟩ := p
    rw [hll] at h
    simp only [Except.ok.injEq] at h
    subst h
    exact ⟨viols, rfl, rfl, rfl, rfl⟩

/-! ### C1: the compliance score -/

/-- The score formula exactly as the spec states it:
`clamp(100 − 10c − 5s − 2m − n, 0, 100)`. -/
def specScoreFormula (c s m n : Nat) : Int :=
  max 0 (min 100 (100 - 10 * (c : Int) - 5 * (s : Int) - 2 * (m : Int) - (n : Int)))

theorem calculateComplianceScore_eq_spec (s : SummaryCounts) :
    calculateComplianceScore s = specScoreFormula s.critical s.serious s.moderate s.minor := by
  have h : 100 + (s.critical : Int) * (-10) + (s.serious : Int) * (-5)
      + (s.moderate : Int) * (-2) + (s.minor : Int) * (-1)
      = 100 - 10 * (s.critical : Int) - 5 * (s.serious : Int)
        - 2 * (s.moderate : Int) - (s.minor : Int) := by ring
  unfold calculateComplianceScore specScoreFormula
  rw [h]

/-- C1: for every pair of violation lists the combiner accepts, the
complianceScore of `combineResults` equals
`clamp(100 − 10·critical − 5·serious − 2·moderate − minor, 0, 100)` of the
per-severity counts; consequently it always lies in [0,100]; and the clamp
formula is non-increasing when any single count increases. -/
theorem complianceScore_spec :
    (∀ (a : Option (List AxeViolation)) (l : Option (List LLMViolation)) (r : CombinedReport),
      combineResults a l = Except.ok r →
        r.complianceScore = specScoreFormula r.summary.critical r.summary.serious
          r.summary.moderate r.summary.minor ∧
        0 ≤ r.complianceScore ∧ r.complianceScore ≤ 100) ∧
    (∀ c c' s m n : Nat, c ≤ c' → specScoreFormula c' s m n ≤ specScoreFormula c s m n) ∧
    (∀ c s s' m n : Nat, s ≤ s' → specScoreFormula c s' m n ≤ specScoreFormula c s m n) ∧
    (∀ c s m m' n : Nat, m ≤ m' → specScoreFormula c s m' n ≤ specScoreFormula c s m n) ∧
    (∀ c s m n n' : Nat, n ≤ n' → specScoreFormula c s m n' ≤ specScoreFormula c s m n) := by
  refine ⟨?_, ?_, ?_, ?_, ?_⟩
  · intro a l r h
    obtain ⟨viols, _, _, _, hscore⟩ := combineResults_ok_inv h
    rw [hscore, calculateComplianceScore_eq_spec]
    refine ⟨rfl, ?_, ?_⟩ <;> unfold specScoreFormula <;> omega
  · intro c c' s m n h; unfold specScoreFormula; omega
  · intro c s s' m n h; unfold specScoreFormula; omega
  · intro c s m m' n h; unfold specScoreFormula; omega
  · intro c s m n n' h; unfold specScoreFormula; omega

/-- A concrete axe violation: one critical violation tagged `wcag143`. -/
def sampleAxe : AxeViolation :=
  { id := "color-contrast", impact := some "critical", description := "d"
    help := "h", helpUrl := "u", tags := ["wcag143", "cat.color"], nodes := [] }

/-- `sampleAxe` normalized. -/
def sampleNorm1 : NormViolation :=
  { source := "axe-core", id := some "color-contrast", type := "color-contrast"
    impact := "critical", description := "d", help := some "h", helpUrl := some "u"
    wcagTags := ["wcag143"], nodes := some 0, axeExamples := [], llmExamples := []
    recommendation := "h", isSemanticIssue := false }

/-- The combined report for `[sampleAxe]` and no llm results. -/
def sampleReport1 : CombinedReport :=
  { summary :=
      { totalViolations := 1, critical := 1, serious := 0, moderate := 0, minor := 0
        axeCore := 1, llm := 0, sourcesCorrupted := false, strayKeys := [] }
    violations := [sampleNorm1]
    wcagCoverage := { A := 100, AA := 95, AAA := 100 }
    complianceScore := 90 }

/-- C1 witness: the score clause of `complianceScore_spec` instantiated on a
single critical violation (score 90). -/
theorem complianceScore_spec_witness :
    combineResults (some [sampleAxe]) none = Except.ok sampleReport1 ∧
    sampleReport1.complianceScore = specScoreFormula sampleReport1.summary.critical
      sampleReport1.summary.serious sampleReport1.summary.moderate sampleReport1.summary.minor ∧
    0 ≤ sampleReport1.complianceScore ∧ sampleReport1.complianceScore ≤ 100 := by
  have hr : combineResults (some [sampleAxe]) none = Except.ok sampleReport1 := by decide
  exact ⟨hr, (complianceScore_spec.1 _ _ _ hr).1,
    (complianceScore_spec.1 _ _ _ hr).2.1, (complianceScore_spec.1 _ _ _ hr).2.2⟩

/-! ### C6: the compliance-level label bands -/

/-- C6: the label is AAA if AAA coverage ≥ 90, else AA if AA coverage ≥ 90,
else A if A coverage ≥ 90, else Not Compliant; bands evaluated highest first
and inclusive at exactly 90. -/
theorem complianceLevel_bands :
    ∀ c : CombinedReport,
      (c.wcagCoverage.AAA ≥ 90 → (generateSummary c).complianceLevel = "AAA") ∧
      (c.wcagCoverage.AAA < 90 → c.wcagCoverage.AA ≥ 90 →
        (generateSummary c).complianceLevel = "AA") ∧
      (c.wcagCoverage.AAA < 90 → c.wcagCoverage.AA < 90 → c.wcagCoverage.A ≥ 90 →
        (generateSummary c).complianceLevel = "A") ∧
      (c.wcagCoverage.AAA < 90 → c.wcagCoverage.AA < 90 → c.wcagCoverage.A < 90 →
        (generateSummary c).complianceLevel = "Not Compliant") := by
  intro c
  by_cases h3 : c.wcagCoverage.AAA ≥ 90 <;> by_cases h2 : c.wcagCoverage.AA ≥ 90 <;>
    by_cases h1 : c.wcagCoverage.A ≥ 90 <;>
    simp only [generateSummary, h1, h2, h3, if_true, if_false, ge_iff_le, not_le] <;>
    refine ⟨?_, ?_, ?_, ?_⟩ <;> intros <;> first | rfl | omega | simp_all | (split_ifs <;> omega) |
      (split_ifs <;> rfl)

/-- A report whose AAA coverage is exactly 90. -/
def boundaryReport : CombinedReport :=
  { summary := initSummary, violations := []
    wcagCoverage := { A := 0, AA := 0, AAA := 90 }, complianceScore := 0 }

/-- C6 witness: coverage exactly 90 meets its band (AAA here). -/
theorem complianceLevel_bands_witness :
    boundaryReport.wcagCoverage.AAA ≥ 90 ∧
    (generateSummary boundaryReport).complianceLevel = "AAA" :=
  ⟨by decide, (complianceLevel_bands boundaryReport).1 (by decide)⟩

/-! ### C5 and C8: groundwork on `foundTags` and the coverage formula -/

theorem natRound_eq_jsRound (a t : Nat) (ht : 0 < t) :
    (((200 * a + t) / (2 * t) : Nat) : Int) = jsRound (100 * (a : ℚ) / t) := by
  have ht0 : (t : ℚ) ≠ 0 := Nat.cast_ne_zero.mpr ht.ne'
  have h1 : 100 * (a : ℚ) / t + 1 / 2 = ((200 * a + t : ℕ) : ℚ) / ((2 * t : ℕ) : ℚ) := by
    push_cast
    field_simp
    ring
  unfold jsRound
  rw [h1, Rat.floor_natCast_div_natCast]
  exact Int.ofNat_div _ _

/-- The integer form of `levelCoverage` agrees with the
`Math.round(100 × (total − violated) / total)` formula of the spec. -/
theorem levelCoverage_eq_jsRound (table tags : List String) (ht : 0 < table.length) :
    levelCoverage table tags =
      jsRound (100 * ((table.length : ℚ) - ((table.filter (fun g => g ∈ tags)).length : ℚ))
        / table.length) := by
  have hv : (table.filter (fun g => g ∈ tags)).length ≤ table.length :=
    List.length_filter_le _ _
  have hcast : ((table.length : ℚ) - ((table.filter (fun g => g ∈ tags)).length : ℚ))
      = ((table.length - (table.filter (fun g => g ∈ tags)).length : ℕ) : ℚ) := by
    rw [Nat.cast_sub hv]
  simp only [levelCoverage]
  rw [hcast, natRound_eq_jsRound _ _ ht]

theorem mem_addTag {x t : String} {acc : List String} :
    x ∈ addTag acc t ↔ x ∈ acc ∨ x = t := by
  by_cases h : t ∈ acc
  · simp only [addTag, if_pos h]
    constructor
    · exact Or.inl
    · rintro (hx | rfl)
      · exact hx
      · exact h
  · simp [addTag, if_neg h]

theorem criterionFold_cons (acc : List String) (tag : String) (tags : List String) :
    criterionFold acc (tag :: tags) =
      criterionFold
        (match tagToCriterion tag with
         | some c => addTag acc c
         | none => acc) tags := rfl

theorem mem_criterionFold (x : String) :
    ∀ (tags acc : List String),
      x ∈ criterionFold acc tags ↔ x ∈ acc ∨ ∃ t ∈ tags, tagToCriterion t = some x := by
  intro tags
  induction tags with
  | nil => intro acc; simp [criterionFold]
  | cons tag tags ih =>
    intro acc
    rw [criterionFold_cons, ih]
    cases hc : tagToCriterion tag with
    | none =>
      constructor
      · rintro (h | ⟨t, ht, he⟩)
        · exact Or.inl h
        · exact Or.inr ⟨t, List.mem_cons_of_mem _ ht, he⟩
      · rintro (h | ⟨t, ht, he⟩)
        · exact Or.inl h
        · rcases List.mem_cons.mp ht with rfl | ht2
          · rw [hc] at he; cases he
          · exact Or.inr ⟨t, ht2, he⟩
    | some c =>
      constructor
      · rintro (h | ⟨t, ht, he⟩)
        · rcases mem_addTag.mp h with hx | rfl
          · exact Or.inl hx
          · exact Or.inr ⟨tag, List.mem_cons_self _ _, hc⟩
        · exact Or.inr ⟨t, List.mem_cons_of_mem _ ht, he⟩
      · rintro (h | ⟨t, ht, he⟩)
        · exact Or.inl (mem_addTag.mpr (Or.inl h))
        · rcases List.mem_cons.mp ht with rfl | ht2
          · rw [hc] at he
            obtain rfl : c = x := by injection he
            exact Or.inl (mem_addTag.mpr (Or.inr rfl))
          · exact Or.inr ⟨t, ht2, he⟩

theorem foundTags_go (x : String) :
    ∀ (viols : List NormViolation) (acc : List String),
      x ∈ viols.foldl (fun acc v => criterionFold acc v.wcagTags) acc ↔
        x ∈ acc ∨ ∃ v ∈ viols, ∃ t ∈ v.wcagTags, tagToCriterion t = some x := by
  intro viols
  induction viols with
  | nil => intro acc; simp
  | cons v vs ih =>
    intro acc
    simp only [List.foldl_cons]
    rw [ih, mem_criterionFold]
    constructor
    · rintro ((h | ⟨t, ht, he⟩) | ⟨w, hw, t, ht, he⟩)
      · exact Or.inl h
      · exact Or.inr ⟨v, List.mem_cons_self _ _, t, ht, he⟩
      · exact Or.inr ⟨w, List.mem_cons_of_mem _ hw, t, ht, he⟩
    · rintro (h | ⟨w, hw, t, ht, he⟩)
      · exact Or.inl (Or.inl h)
      · rcases List.mem_cons.mp hw with rfl | hw2
        · exact Or.inl (Or.inr ⟨t, ht, he⟩)
        · exact Or.inr ⟨w, hw2, t, ht, he⟩

/-- A criterion is in `foundTags` exactly when some violation carries a wcag
tag the regex reduces to it. -/
theorem mem_foundTags (viols : List NormViolation) (x : String) :
    x ∈ foundTags viols ↔ ∃ v ∈ viols, ∃ t ∈ v.wcagTags, tagToCriterion t = some x := by
  unfold foundTags
  rw [foundTags_go]
  simp

/-- Every criterion the tag regex produces is a five-character dotted string
of three single digits. -/
theorem tagToCriterion_length {tag x : String} (h : tagToCriterion tag = some x) :
    x.length = 5 := by
  unfold tagToCriterion at h
  cases hs : wcagScan tag.data with
  | none => rw [hs] at h; cases h
  | some t =>
    rw [hs] at h
    simp only [Option.map_some', Option.some.injEq] at h
    subst h
    rfl

/-- Number of criteria of one level table counted as violated. -/
def violatedCount (table : List String) (viols : List NormViolation) : Nat :=
  (table.filter (fun g => g ∈ foundTags viols)).length

theorem coverage_level_eq (table : List String) (viols : List NormViolation)
    (T : ℚ) (hT : (table.length : ℚ) = T) (h0 : 0 < table.length) :
    levelCoverage table (foundTags viols) =
      jsRound (100 * (T - (violatedCount table viols : ℚ)) / T) := by
  rw [← hT]
  exact levelCoverage_eq_jsRound table (foundTags viols) h0

theorem levelCoverage_of_none (table : List String) (viols : List NormViolation)
    (h0 : 0 < table.length) (h : violatedCount table viols = 0) :
    levelCoverage table (foundTags viols) = 100 := by
  unfold violatedCount at h
  simp only [levelCoverage, h, Nat.sub_zero]
  have h1 : 200 * table.length + table.length = table.length * 201 := by omega
  have h2 : 2 * table.length = table.length * 2 := by omega
  rw [h1, h2, Nat.mul_div_mul_left _ _ h0]
  rfl

theorem levelCoverage_of_all (table : List String) (viols : List NormViolation)
    (h0 : 0 < table.length) (h : violatedCount table viols = table.length) :
    levelCoverage table (foundTags viols) = 0 := by
  unfold violatedCount at h
  simp only [levelCoverage, h, Nat.sub_self, Nat.mul_zero, Nat.zero_add]
  rw [Nat.div_eq_of_lt (by omega)]
  rfl

/-- C5: for every violation list and each conformance level, the coverage
returned by `calculateWCAGCoverage` equals
`round(100 × (total − violated) / total)`, where `violated` counts the
criteria of that level appearing in some violation's extracted WCAG tag set;
coverage is 100 when no criterion of the level is violated and 0 when every
criterion of the level is violated. -/
theorem wcagCoverage_spec (viols : List NormViolation) :
    ((calculateWCAGCoverage viols).A
        = jsRound (100 * ((31 : ℚ) - (violatedCount wcagGuidelinesA viols : ℚ)) / 31) ∧
      (calculateWCAGCoverage viols).AA
        = jsRound (100 * ((21 : ℚ) - (violatedCount wcagGuidelinesAA viols : ℚ)) / 21) ∧
      (calculateWCAGCoverage viols).AAA
        = jsRound (100 * ((27 : ℚ) - (violatedCount wcagGuidelinesAAA viols : ℚ)) / 27)) ∧
    (∀ g, g ∈ foundTags viols ↔ ∃ v ∈ viols, ∃ t ∈ v.wcagTags, tagToCriterion t = some g) ∧
    ((violatedCount wcagGuidelinesA viols = 0 → (calculateWCAGCoverage viols).A = 100) ∧
     (violatedCount wcagGuidelinesAA viols = 0 → (calculateWCAGCoverage viols).AA = 100) ∧
     (violatedCount wcagGuidelinesAAA viols = 0 → (calculateWCAGCoverage viols).AAA = 100)) ∧
    ((violatedCount wcagGuidelinesA viols = 31 → (calculateWCAGCoverage viols).A = 0) ∧
     (violatedCount wcagGuidelinesAA viols = 21 → (calculateWCAGCoverage viols).AA = 0) ∧
     (violatedCount wcagGuidelinesAAA viols = 27 → (calculateWCAGCoverage viols).AAA = 0)) := by
  refine ⟨⟨?_, ?_, ?_⟩, mem_foundTags viols, ⟨?_, ?_, ?_⟩, ⟨?_, ?_, ?_⟩⟩
  · exact coverage_level_eq wcagGuidelinesA viols 31
      (by rw [show wcagGuidelinesA.length = 31 from rfl]; norm_num) (by decide)
  · exact coverage_level_eq wcagGuidelinesAA viols 21
      (by rw [show wcagGuidelinesAA.length = 21 from rfl]; norm_num) (by decide)
  · exact coverage_level_eq wcagGuidelinesAAA viols 27
      (by rw [show wcagGuidelinesAAA.length = 27 from rfl]; norm_num) (by decide)
  · intro h; exact levelCoverage_of_none wcagGuidelinesA viols (by decide) h
  · intro h; exact levelCoverage_of_none wcagGuidelinesAA viols (by decide) h
  · intro h; exact levelCoverage_of_none wcagGuidelinesAAA viols (by decide) h
  · intro h; exact levelCoverage_of_all wcagGuidelinesA viols (by decide) (h.trans rfl)
  · intro h; exact levelCoverage_of_all wcagGuidelinesAA viols (by decide) (h.trans rfl)
  · intro h; exact levelCoverage_of_all wcagGuidelinesAAA viols (by decide) (h.trans rfl)

/-- C5 witness: on the empty violation list no criterion is violated and all
three levels have coverage 100. -/
theorem wcagCoverage_spec_witness :
    violatedCount wcagGuidelinesA [] = 0 ∧ (calculateWCAGCoverage []).A = 100 ∧
    violatedCount wcagGuidelinesAA [] = 0 ∧ (calculateWCAGCoverage []).AA = 100 ∧
    violatedCount wcagGuidelinesAAA [] = 0 ∧ (calculateWCAGCoverage []).AAA = 100 :=
  ⟨by decide, (wcagCoverage_spec []).2.2.1.1 (by decide),
   by decide, (wcagCoverage_spec []).2.2.1.2.1 (by decide),
   by decide, (wcagCoverage_spec []).2.2.1.2.2 (by decide)⟩

/-- A violation carrying only the four-digit tag `wcag1410`
(criterion 1.4.10, Reflow, level AA). -/
def tagged1410 : NormViolation :=
  { source := "axe-core", id := some "reflow", type := "reflow", impact := "serious"
    description := "d", help := some "h", helpUrl := some "u"
    wcagTags := ["wcag1410"], nodes := some 1, axeExamples := [], llmExamples := []
    recommendation := "h", isSemanticIssue := false }

/-- C8: the regex `wcag(\d)(\d)(\d)` keeps only the first three digits of a
tag, so `wcag1410` is recorded as criterion 1.4.1; consequently the
two-digit-final criteria in the level tables can never be counted as
violated, while the three-digit prefix criterion is counted instead (for
`wcag1410`, level A coverage drops to 97 while AA stays at 100). -/
theorem wcag_tag_truncation :
    (∀ (d1 d2 d3 : Char) (rest : List Char) (tag : String),
      tag.data = 'w' :: 'c' :: 'a' :: 'g' :: d1 :: d2 :: d3 :: rest →
      d1.isDigit = true → d2.isDigit = true → d3.isDigit = true →
      tagToCriterion tag = some (String.mk [d1, '.', d2, '.', d3])) ∧
    tagToCriterion "wcag1410" = some "1.4.1" ∧
    (∀ (viols : List NormViolation) (g : String),
      g ∈ (["1.4.10", "1.4.11", "1.4.12", "1.4.13", "2.4.10"] : List String) →
      g ∉ foundTags viols) ∧
    (calculateWCAGCoverage [tagged1410]).A = 97 ∧
    (calculateWCAGCoverage [tagged1410]).AA = 100 := by
  refine ⟨?_, by decide, ?_, by decide, by decide⟩
  · intro d1 d2 d3 rest tag htag h1 h2 h3
    unfold tagToCriterion
    rw [htag]
    simp [wcagScan, wcagMatchAt, h1, h2, h3]
  · intro viols g hg hmem
    obtain ⟨v, _, t, _, he⟩ := (mem_foundTags viols g).mp hmem
    have h5 := tagToCriterion_length he
    fin_cases hg <;> exact absurd h5 (by decide)

/-- C8 witness: the reduction applied to the concrete tag `wcag1410`, and
criterion 1.4.10 absent from the violated set of a violation that carries
exactly that tag. -/
theorem wcag_tag_truncation_witness :
    tagToCriterion "wcag1410" = some (String.mk ['1', '.', '4', '.', '1']) ∧
    "1.4.10" ∉ foundTags [tagged1410] :=
  ⟨wcag_tag_truncation.1 '1' '4' '1' ['0'] "wcag1410" rfl (by decide) (by decide) (by decide),
   wcag_tag_truncation.2.2.1 [tagged1410] "1.4.10" (by decide)⟩

/-! ### C7: totality and the moderate default -/

/-- Normalization of a semantic violation through the defaulted severity
lookup (coincides with the combiner when the severity field is present). -/
def normalizeLLMd (v : LLMViolation) : NormViolation :=
  normalizeLLM v ((v.severity.getD "").toLower)

/-- Summary update of a semantic violation through the defaulted severity. -/
def llmSummaryStepd (s : SummaryCounts) (v : LLMViolation) : SummaryCounts :=
  llmSummaryStep s ((v.severity.getD "").toLower)

theorem processLLM_all_some :
    ∀ (vs : List LLMViolation), (∀ v ∈ vs, v.severity ≠ none) →
      ∀ (l : List NormViolation) (s : SummaryCounts),
        processLLM vs (l, s) =
          Except.ok (l ++ vs.map normalizeLLMd, vs.foldl llmSummaryStepd s) := by
  intro vs
  induction vs with
  | nil => intro _ l s; simp [processLLM]
  | cons v vs ih =>
    intro hall l s
    cases hv : v.severity with
    | none => exact absurd hv (hall v (List.mem_cons_self _ _))
    | some sev =>
      have h2 : ∀ w ∈ vs, w.severity ≠ none := fun w hw => hall w (List.mem_cons_of_mem _ hw)
      have hnv : normalizeLLM v sev.toLower = normalizeLLMd v := by
        unfold normalizeLLMd; rw [hv]; rfl
      have hsv : llmSummaryStep s sev.toLower = llmSummaryStepd s v := by
        unfold llmSummaryStepd; rw [hv]; rfl
      simp only [processLLM, hv]
      rw [ih h2, hnv, hsv]
      simp

theorem processLLM_ok_severities :
    ∀ (vs : List LLMViolation) (acc : List NormViolation × SummaryCounts)
      (out : List NormViolation × SummaryCounts),
      processLLM vs acc = Except.ok out → ∀ v ∈ vs, v.severity ≠ none := by
  intro vs
  induction vs with
  | nil => intro acc out _ v hv; cases hv
  | cons w ws ih =>
    intro acc out h v hv
    obtain ⟨l, s⟩ := acc
    cases hw : w.severity with
    | none =>
      simp only [processLLM, hw] at h
      exact Except.noConfusion h
    | some sev =>
      simp only [processLLM, hw] at h
      rcases List.mem_cons.mp hv with rfl | hv2
      · rw [hw]; exact Option.some_ne_none sev
      · exact ih _ _ h v hv2

/-- C7 (amended): the combiner completes normally whenever every semantic
violation carries a severity string; a severity whose lowercase form is not
one of the four severities and does not collide with an object key of the
summary (`totalViolations`, `sources`, `constructor`, `__proto__`, or a
previously created stray key) is counted under moderate.  (A missing
severity field makes the combiner throw: see the counterexample.) -/
theorem combineResults_total_unknown_moderate :
    (∀ (axeResults : Option (List AxeViolation)) (llmResults : Option (List LLMViolation)),
      (∀ vs, llmResults = some vs → ∀ v ∈ vs, v.severity ≠ none) →
      ∃ r, combineResults axeResults llmResults = Except.ok r) ∧
    (∀ (s : SummaryCounts) (lowered : String),
      lowered ∉ (["critical", "serious", "minor", "totalViolations", "sources",
        "constructor", "__proto__"] : List String) →
      lowered ∉ s.strayKeys →
      (llmSummaryStep s lowered).moderate = s.moderate + 1) := by
  constructor
  · intro a l hall
    rw [combineResults_eq]
    cases l with
    | none => exact ⟨_, rfl⟩
    | some vs =>
      have h := processLLM_all_some vs (hall vs rfl) (axeAcc a).1 (axeAcc a).2
      have hacc : llmAcc (some vs) (axeAcc a) =
          Except.ok ((axeAcc a).1 ++ vs.map normalizeLLMd,
            vs.foldl llmSummaryStepd (axeAcc a).2) := h
      rw [hacc]
      exact ⟨_, rfl⟩
  · intro s lowered h1 h2
    simp only [List.mem_cons, List.not_mem_nil, or_false] at h1
    push_neg at h1
    obtain ⟨hcr, hse, hmi, htv, hso, hco, hpr⟩ := h1
    by_cases hmod : lowered = "moderate" <;>
      simp [llmSummaryStep, hcr, hse, hmi, htv, hso, hco, hpr, hmod, h2] <;>
      split <;> rfl

/-- C7 counterexample: a semantic violation whose severity field is missing
makes `combineResults` throw a TypeError instead of completing (the claim
asserts it completes and counts the violation as moderate). -/
theorem combineResults_missing_severity_throws :
    combineResults none
      (some [{ type := "unclear-link-text", severity := none, description := "d",
               recommendation := "r", examples := none }]) =
      Except.error "TypeError: Cannot read properties of undefined reading toLowerCase" := by
  rfl

/-- A semantic violation with an unknown (but present) severity string. -/
def unknownSevViolation : LLMViolation :=
  { type := "odd-category", severity := some "Weird", description := "d"
    recommendation := "r", examples := none }

/-- C7 witness: the amended claim instantiated on one semantic violation of
unknown severity. -/
theorem combineResults_total_unknown_moderate_witness :
    (∃ r, combineResults none (some [unknownSevViolation]) = Except.ok r) ∧
    (llmSummaryStep initSummary "weird").moderate = initSummary.moderate + 1 :=
  ⟨combineResults_total_unknown_moderate.1 none (some [unknownSevViolation])
      (by rintro vs hvs v hv
          injection hvs with h
          subst h
          fin_cases hv
          decide),
   combineResults_total_unknown_moderate.2 initSummary "weird" (by decide) (by decide)⟩

/-! ### C9: sortedness and stability of the final violation list -/

theorem mem_sortInsert (z x : NormViolation) (l : List NormViolation) :
    z ∈ sortInsert x l ↔ z = x ∨ z ∈ l := by
  induction l with
  | nil => simp [sortInsert]
  | cons y ys ih =>
    by_cases h : sortKey x ≤ sortKey y
    · simp only [sortInsert, if_pos h, List.mem_cons]
    · simp only [sortInsert, if_neg h, List.mem_cons, ih]
      tauto

theorem sortInsert_pairwise (x : NormViolation) (l : List NormViolation)
    (h : l.Pairwise (fun a b => sortKey a ≤ sortKey b)) :
    (sortInsert x l).Pairwise (fun a b => sortKey a ≤ sortKey b) := by
  induction l with
  | nil => simp [sortInsert]
  | cons y ys ih =>
    rcases List.pairwise_cons.mp h with ⟨hy, hys⟩
    by_cases hxy : sortKey x ≤ sortKey y
    · simp only [sortInsert, if_pos hxy]
      refine List.pairwise_cons.mpr ⟨?_, h⟩
      intro z hz
      rcases List.mem_cons.mp hz with rfl | hz2
      · exact hxy
      · exact le_trans hxy (hy z hz2)
    · simp only [sortInsert, if_neg hxy]
      refine List.pairwise_cons.mpr ⟨?_, ih hys⟩
      intro z hz
      rcases (mem_sortInsert z x ys).mp hz with rfl | hz2
      · omega
      · exact hy z hz2

theorem sortBySeverity_pairwise (l : List NormViolation) :
    (sortBySeverity l).Pairwise (fun a b => sortKey a ≤ sortKey b) := by
  induction l with
  | nil => simp [sortBySeverity]
  | cons x xs ih => exact sortInsert_pairwise x _ ih

theorem sortInsert_perm (x : NormViolation) (l : List NormViolation) :
    List.Perm (sortInsert x l) (x :: l) := by
  induction l with
  | nil => simp [sortInsert]
  | cons y ys ih =>
    by_cases h : sortKey x ≤ sortKey y
    · simp only [sortInsert, if_pos h]
      exact List.Perm.refl _
    · simp only [sortInsert, if_neg h]
      exact (List.Perm.cons y ih).trans (List.Perm.swap x y ys)

theorem sortBySeverity_perm (l : List NormViolation) : List.Perm (sortBySeverity l) l := by
  induction l with
  | nil => simp [sortBySeverity]
  | cons x xs ih => exact (sortInsert_perm x _).trans (List.Perm.cons x ih)

theorem sortInsert_filter_ne (x : NormViolation) (k : Nat) (hk : sortKey x ≠ k) :
    ∀ l : List NormViolation,
      (sortInsert x l).filter (fun v => sortKey v == k) =
        l.filter (fun v => sortKey v == k)
  | [] => by simp [sortInsert, List.filter_cons, hk]
  | y :: ys => by
    by_cases h : sortKey x ≤ sortKey y
    · simp only [sortInsert, if_pos h]
      rw [List.filter_cons, List.filter_cons]
      simp [hk]
    · simp only [sortInsert, if_neg h]
      rw [List.filter_cons, List.filter_cons, sortInsert_filter_ne x k hk ys]

theorem sortInsert_filter_self (x : NormViolation) (k : Nat) (hk : sortKey x = k) :
    ∀ l : List NormViolation,
      (sortInsert x l).filter (fun v => sortKey v == k) =
        x :: l.filter (fun v => sortKey v == k)
  | [] => by simp [sortInsert, List.filter_cons, hk]
  | y :: ys => by
    by_cases h : sortKey x ≤ sortKey y
    · simp only [sortInsert, if_pos h]
      rw [List.filter_cons]
      simp [hk]
    · have hyk : sortKey y ≠ k := by omega
      simp only [sortInsert, if_neg h]
      rw [List.filter_cons, List.filter_cons, sortInsert_filter_self x k hk ys]
      simp [hyk]

theorem sortBySeverity_filter (l : List NormViolation) (k : Nat) :
    (sortBySeverity l).filter (fun v => sortKey v == k) =
      l.filter (fun v => sortKey v == k) := by
  induction l with
  | nil => rfl
  | cons x xs ih =>
    show (sortInsert x (sortBySeverity xs)).filter _ = _
    by_cases hk : sortKey x = k
    · rw [sortInsert_filter_self x k hk, ih, List.filter_cons]
      simp [hk]
    · rw [sortInsert_filter_ne x k hk, ih, List.filter_cons]
      simp [hk]

theorem processAxe_eq :
    ∀ (vs : List AxeViolation) (l : List NormViolation) (s : SummaryCounts),
      processAxe vs (l, s) =
        (l ++ vs.map normalizeAxe, vs.foldl (fun s2 v => axeSummaryStep s2 v.impact) s) := by
  intro vs
  induction vs with
  | nil => intro l s; simp [processAxe]
  | cons v vs ih =>
    intro l s
    simp only [processAxe]
    rw [ih]
    simp

/-- C9: the violations sequence of a successful `combineResults` is sorted
by severity rank ascending, is a permutation of the concatenated normalized
input (rule-sourced then semantic-sourced), and violations of equal severity
rank retain the relative order of that concatenated input. -/
theorem violations_sorted_stable :
    ∀ (axe : List AxeViolation) (llm : List LLMViolation) (r : CombinedReport),
      combineResults (some axe) (some llm) = Except.ok r →
      r.violations.Pairwise (fun a b => sortKey a ≤ sortKey b) ∧
      List.Perm r.violations (axe.map normalizeAxe ++ llm.map normalizeLLMd) ∧
      (∀ k : Nat, r.violations.filter (fun v => sortKey v == k) =
        (axe.map normalizeAxe ++ llm.map normalizeLLMd).filter (fun v => sortKey v == k)) := by
  intro axe llm r h
  obtain ⟨viols, hll, hv, _, _⟩ := combineResults_ok_inv h
  have hsome : ∀ v ∈ llm, v.severity ≠ none := processLLM_ok_severities llm _ _ hll
  have hax : axeAcc (some axe) =
      (axe.map normalizeAxe, axe.foldl (fun s2 v => axeSummaryStep s2 v.impact) initSummary) := by
    show processAxe axe ([], initSummary) = _
    rw [processAxe_eq]
    simp
  have hllm := processLLM_all_some llm hsome (axe.map normalizeAxe)
    (axe.foldl (fun s2 v => axeSummaryStep s2 v.impact) initSummary)
  have hll2 : llmAcc (some llm) (axeAcc (some axe)) =
      Except.ok (axe.map normalizeAxe ++ llm.map normalizeLLMd,
        llm.foldl llmSummaryStepd (axe.foldl (fun s2 v => axeSummaryStep s2 v.impact) initSummary)) := by
    show processLLM llm (axeAcc (some axe)) = _
    rw [hax, hllm]
  rw [hll2] at hll
  simp only [Except.ok.injEq, Prod.mk.injEq] at hll
  obtain ⟨hviols, _⟩ := hll
  subst hviols
  rw [hv]
  exact ⟨sortBySeverity_pairwise _, sortBySeverity_perm _, fun k => sortBySeverity_filter _ k⟩

/-- A minor-impact axe violation (first of two equal-severity inputs). -/
def axMin1 : AxeViolation :=
  { id := "m1", impact := some "minor", description := "d1", help := "h1"
    helpUrl := "u1", tags := [], nodes := [] }

/-- A critical-impact axe violation placed between the two minors. -/
def axCrit : AxeViolation :=
  { id := "c1", impact := some "critical", description := "d2", help := "h2"
    helpUrl := "u2", tags := [], nodes := [] }

/-- A minor-impact axe violation (second of two equal-severity inputs). -/
def axMin2 : AxeViolation :=
  { id := "m2", impact := some "minor", description := "d3", help := "h3"
    helpUrl := "u3", tags := [], nodes := [] }

/-- The combined report for `[axMin1, axCrit, axMin2]`: the critical comes
first and the two minors keep their input order. -/
def stableReport : CombinedReport :=
  { summary :=
      { totalViolations := 3, critical := 1, serious := 0, moderate := 0, minor := 2
        axeCore := 3, llm := 0, sourcesCorrupted := false, strayKeys := [] }
    violations := [normalizeAxe axCrit, normalizeAxe axMin1, normalizeAxe axMin2]
    wcagCoverage := { A := 100, AA := 100, AAA := 100 }
    complianceScore := 88 }

/-- C9 witness: the sortedness and stability clauses instantiated on a
concrete minor/critical/minor input. -/
theorem violations_sorted_stable_witness :
    combineResults (some [axMin1, axCrit, axMin2]) (some []) = Except.ok stableReport ∧
    stableReport.violations.Pairwise (fun a b => sortKey a ≤ sortKey b) ∧
    stableReport.violations.filter (fun v => sortKey v == 3) =
      (([axMin1, axCrit, axMin2].map normalizeAxe
        ++ ([] : List LLMViolation).map normalizeLLMd).filter (fun v => sortKey v == 3)) := by
  have hr : combineResults (some [axMin1, axCrit, axMin2]) (some []) =
      Except.ok stableReport := by decide
  have h := violations_sorted_stable [axMin1, axCrit, axMin2] [] stableReport hr
  exact ⟨hr, h.1, h.2.2 3⟩

/-! ### C2: the retry loop -/

theorem withRetryGo_ok {α : Type} (opts : RetryOptions) (calls : Nat → CallOutcome α)
    (attempt fuel : Nat) (delays : List Nat) (v : α)
    (h : calls attempt = CallOutcome.ok v) :
    withRetryGo opts calls attempt (fuel + 1) delays =
      RetryResult.success v attempt delays := by
  simp [withRetryGo, h]

theorem withRetryGo_err_stop {α : Type} (opts : RetryOptions) (calls : Nat → CallOutcome α)
    (attempt fuel : Nat) (delays : List Nat) (m : String)
    (h : calls attempt = CallOutcome.err m)
    (hstop : attempt = opts.maxRetries ∨ isRetryableError opts m = false) :
    withRetryGo opts calls attempt (fuel + 1) delays =
      RetryResult.failure m attempt delays := by
  simp only [withRetryGo, h]
  rw [if_pos]
  rcases hstop with h1 | h2
  · exact Or.inl h1
  · exact Or.inr (by simp [h2])

theorem withRetryGo_err_retry {α : Type} (opts : RetryOptions) (calls : Nat → CallOutcome α)
    (attempt fuel : Nat) (delays : List Nat) (m : String)
    (h : calls attempt = CallOutcome.err m) (h1 : attempt ≠ opts.maxRetries)
    (h2 : isRetryableError opts m = true) :
    withRetryGo opts calls attempt (fuel + 1) delays =
      withRetryGo opts calls (attempt + 1) fuel
        (delays ++ [min (opts.baseDelay * opts.backoffMultiplier ^ (attempt - 1)) opts.maxDelay]) := by
  simp only [withRetryGo, h]
  rw [if_neg]
  rintro (ha | hb)
  · exact h1 ha
  · exact hb h2

/-- C2 (amended): with the default retry options, N retryable failures
followed by a success on call N+1 make `scrapePage` succeed after exactly
N+1 attempts with the capped exponential delays, provided N+1 does not
exceed maxRetries (= 3); and a non-retryable error on the first call fails
immediately with exactly 1 attempt and no waits. -/
theorem scrapePage_retry_spec :
    (∀ (N : Nat) (calls : Nat → CallOutcome Nat) (v : Nat),
      N + 1 ≤ DEFAULT_RETRY_OPTIONS.maxRetries →
      (∀ i, 1 ≤ i → i ≤ N →
        ∃ m, calls i = CallOutcome.err m ∧ isRetryableError DEFAULT_RETRY_OPTIONS m = true) →
      calls (N + 1) = CallOutcome.ok v →
      scrapePage DEFAULT_RETRY_OPTIONS calls =
        RetryResult.success v (N + 1)
          ((List.range N).map (fun i => min (1000 * 2 ^ i) 10000))) ∧
    (∀ (calls : Nat → CallOutcome Nat) (m : String),
      calls 1 = CallOutcome.err m →
      isRetryableError DEFAULT_RETRY_OPTIONS m = false →
      scrapePage DEFAULT_RETRY_OPTIONS calls = RetryResult.failure m 1 []) := by
  constructor
  · intro N calls v hN hfail hok
    have hN2 : N ≤ 2 := by
      have h3 : DEFAULT_RETRY_OPTIONS.maxRetries = 3 := rfl
      omega
    interval_cases N
    · show withRetryGo DEFAULT_RETRY_OPTIONS calls 1 (2 + 1) [] = _
      rw [withRetryGo_ok DEFAULT_RETRY_OPTIONS calls 1 2 [] v hok]
      rfl
    · obtain ⟨m1, hm1, hr1⟩ := hfail 1 (by omega) (by omega)
      show withRetryGo DEFAULT_RETRY_OPTIONS calls 1 (2 + 1) [] = _
      rw [withRetryGo_err_retry DEFAULT_RETRY_OPTIONS calls 1 2 [] m1 hm1 (by decide) hr1]
      show withRetryGo DEFAULT_RETRY_OPTIONS calls 2 (1 + 1) [min (1000 * 2 ^ 0) 10000] = _
      rw [withRetryGo_ok DEFAULT_RETRY_OPTIONS calls 2 1 _ v hok]
      rfl
    · obtain ⟨m1, hm1, hr1⟩ := hfail 1 (by omega) (by omega)
      obtain ⟨m2, hm2, hr2⟩ := hfail 2 (by omega) (by omega)
      show withRetryGo DEFAULT_RETRY_OPTIONS calls 1 (2 + 1) [] = _
      rw [withRetryGo_err_retry DEFAULT_RETRY_OPTIONS calls 1 2 [] m1 hm1 (by decide) hr1]
      show withRetryGo DEFAULT_RETRY_OPTIONS calls 2 (1 + 1) [min (1000 * 2 ^ 0) 10000] = _
      rw [withRetryGo_err_retry DEFAULT_RETRY_OPTIONS calls 2 1 _ m2 hm2 (by decide) hr2]
      show withRetryGo DEFAULT_RETRY_OPTIONS calls 3 (0 + 1)
        [min (1000 * 2 ^ 0) 10000, min (1000 * 2 ^ 1) 10000] = _
      rw [withRetryGo_ok DEFAULT_RETRY_OPTIONS calls 3 0 _ v hok]
      rfl
  · intro calls m hm hnr
    show withRetryGo DEFAULT_RETRY_OPTIONS calls 1 (2 + 1) [] = _
    rw [withRetryGo_err_stop DEFAULT_RETRY_OPTIONS calls 1 2 [] m hm (Or.inr hnr)]

/-- Call oracle: a retryable connection failure on the first call, success
on every later call. -/
def retryOnceCalls : Nat → CallOutcome Nat := fun i =>
  if i = 1 then CallOutcome.err "connect ECONNREFUSED 127.0.0.1:443"
  else CallOutcome.ok 5

/-- C2 witness: one retryable failure, then success on call 2 after a
1000 ms wait. -/
theorem scrapePage_retry_spec_witness :
    scrapePage DEFAULT_RETRY_OPTIONS retryOnceCalls = RetryResult.success 5 2 [1000] := by
  have h := scrapePage_retry_spec.1 1 retryOnceCalls 5 (by decide)
    (by intro i h1 h2
        have hi : i = 1 := by omega
        subst hi
        exact ⟨"connect ECONNREFUSED 127.0.0.1:443", rfl, by decide⟩)
    (by decide)
  exact h.trans (by decide)

/-- Call oracle: retryable timeouts on the first three calls, success on
call 4 (which the claim predicts is reached). -/
def threeTimeoutCalls : Nat → CallOutcome Nat := fun i =>
  if i ≤ 3 then CallOutcome.err "Navigation timeout of 30000 ms exceeded"
  else CallOutcome.ok 7

/-- C2 counterexample: with the default options (maxRetries = 3), N = 3
retryable failures followed by a success on call 4 do NOT lead to success
after 4 attempts — the loop stops at attempt 3 with the last error, so the
claim's universal statement over all N ≥ 0 fails at N = 3. -/
theorem scrapePage_fourth_attempt_never_made :
    scrapePage DEFAULT_RETRY_OPTIONS threeTimeoutCalls =
      RetryResult.failure "Navigation timeout of 30000 ms exceeded" 3 [1000, 2000] ∧
    threeTimeoutCalls 4 = CallOutcome.ok 7 := by
  constructor <;> decide

/-! ### Store lemmas for the dispatcher claims -/

/-- Whether an `Except` is a success. -/
def exceptOk {ε α : Type} : Except ε α → Bool
  | Except.ok _ => true
  | Except.error _ => false

theorem find?_map_overwrite (r : AuditRecordM) :
    ∀ st : List AuditRecordM, st.any (fun x => x.auditId = r.auditId) = true →
      (st.map (fun x => if x.auditId = r.auditId then r else x)).find?
        (fun x => x.auditId = r.auditId) = some r := by
  intro st
  induction st with
  | nil => intro h; simp at h
  | cons x xs ih =>
    intro h
    simp only [List.map_cons]
    by_cases hx : x.auditId = r.auditId
    · rw [if_pos hx]
      exact List.find?_cons_of_pos _ (by simp)
    · rw [if_neg hx]
      rw [List.find?_cons_of_neg _ (by simpa using hx)]
      apply ih
      simp only [List.any_cons, hx] at h
      simpa using h

theorem find?_map_keep (r : AuditRecordM) (k : String) (hk : k ≠ r.auditId) :
    ∀ st : List AuditRecordM,
      (st.map (fun x => if x.auditId = r.auditId then r else x)).find?
        (fun x => x.auditId = k) = st.find? (fun x => x.auditId = k) := by
  intro st
  induction st with
  | nil => rfl
  | cons x xs ih =>
    simp only [List.map_cons]
    by_cases hx : x.auditId = r.auditId
    · rw [if_pos hx]
      have hxk : ¬(x.auditId = k) := by rw [hx]; exact fun he => hk he.symm
      rw [List.find?_cons_of_neg _ (by simpa using (show ¬(r.auditId = k) from fun he => hk he.symm)),
        List.find?_cons_of_neg _ (by simpa using hxk)]
      exact ih
    · rw [if_neg hx]
      by_cases hxk : x.auditId = k
      · rw [List.find?_cons_of_pos _ (by simpa using hxk),
          List.find?_cons_of_pos _ (by simpa using hxk)]
      · rw [List.find?_cons_of_neg _ (by simpa using hxk),
          List.find?_cons_of_neg _ (by simpa using hxk)]
        exact ih

theorem storeGet_storePut_self (st : List AuditRecordM) (r : AuditRecordM) :
    storeGet (storePut st r) r.auditId = some r := by
  unfold storeGet storePut
  by_cases h : st.any (fun x => x.auditId = r.auditId) = true
  · rw [if_pos h]
    exact find?_map_overwrite r st h
  · rw [if_neg h]
    have h2 : ∀ x ∈ st, ¬(x.auditId = r.auditId) := by
      simpa [List.any_eq_true] using h
    have hnone : st.find? (fun x => x.auditId = r.auditId) = none := by
      rw [List.find?_eq_none]
      intro x hx
      simpa using h2 x hx
    rw [List.find?_append, hnone]
    simp

theorem storeGet_storePut_ne (st : List AuditRecordM) (r : AuditRecordM) (k : String)
    (hk : k ≠ r.auditId) :
    storeGet (storePut st r) k = storeGet st k := by
  unfold storeGet storePut
  by_cases h : st.any (fun x => x.auditId = r.auditId) = true
  · rw [if_pos h]
    exact find?_map_keep r k hk st
  · rw [if_neg h]
    rw [List.find?_append]
    have hr : ([r].find? (fun x => x.auditId = k)) = none := by
      rw [List.find?_eq_none]
      intro x hx
      rcases List.mem_singleton.mp hx with rfl
      simpa using fun he => hk he.symm
    rw [hr]
    cases st.find? (fun x => x.auditId = k) <;> rfl

/-! ### C3: partial batch failure -/

theorem consumerLoop_failures (pipeline : String → Except String PipelineSummary) :
    ∀ (records : List SQSRecordM) (st : List AuditRecordM),
      (consumerLoop pipeline st records).2 =
        (records.filter (fun r => !exceptOk (pipeline r.job.url))).map
          (fun r => r.messageId) := by
  intro records
  induction records with
  | nil => intro st; rfl
  | cons r rs ih =>
    intro st
    cases hp : pipeline r.job.url with
    | error e =>
      simp only [consumerLoop, processRecordM, hp]
      rw [List.filter_cons, if_pos (by rw [hp]; rfl)]
      rw [List.map_cons, ih st]
    | ok out =>
      simp only [consumerLoop, processRecordM, hp]
      rw [List.filter_cons, if_neg (by rw [hp]; simp [exceptOk])]
      exact ih _

/-- C3: the batchItemFailures set returned by the consumer handler contains
exactly the message ids whose individual processing threw, in order, and no
others (the rest are acknowledged); on initialization failure the handler
reports every message id of the batch and touches nothing. -/
theorem batchItemFailures_spec :
    (∀ (e : String) (pipeline : String → Except String PipelineSummary)
       (st : List AuditRecordM) (records : List SQSRecordM),
      consumerHandler (Except.error e) pipeline st records =
        (st, records.map (fun r => r.messageId))) ∧
    (∀ (pipeline : String → Except String PipelineSummary)
       (st : List AuditRecordM) (records : List SQSRecordM),
      (consumerHandler (Except.ok ()) pipeline st records).2 =
        (records.filter (fun r => !exceptOk (pipeline r.job.url))).map
          (fun r => r.messageId)) ∧
    (∀ (pipeline : String → Except String PipelineSummary)
       (st : List AuditRecordM) (records : List SQSRecordM),
      (records.map (fun r => r.messageId)).Nodup →
      ∀ r ∈ records,
        (r.messageId ∈ (consumerHandler (Except.ok ()) pipeline st records).2 ↔
          exceptOk (pipeline r.job.url) = false)) := by
  refine ⟨fun e pipeline st records => rfl, ?_, ?_⟩
  · intro pipeline st records
    exact consumerLoop_failures pipeline records st
  · intro pipeline st records hnd r hr
    rw [show (consumerHandler (Except.ok ()) pipeline st records).2 =
      (records.filter (fun r => !exceptOk (pipeline r.job.url))).map (fun r => r.messageId)
      from consumerLoop_failures pipeline records st]
    constructor
    · intro hmem
      obtain ⟨r2, hr2, heq⟩ := List.mem_map.mp hmem
      have hr2m := List.mem_of_mem_filter hr2
      have hp2 := List.of_mem_filter hr2
      have hrr : r2 = r := List.inj_on_of_nodup_map hnd hr2m hr heq
      subst hrr
      simpa using hp2
    · intro hnok
      exact List.mem_map.mpr ⟨r, List.mem_filter.mpr ⟨hr, by simp [hnok]⟩, rfl⟩

/-- A successful pipeline output used by the witnesses. -/
def samplePipeOut : PipelineSummary :=
  { scannedAt := "t1", overallScore := 100, complianceLevel := "AAA"
    totalIssues := 0, criticalIssues := 0 }

/-- A batch of five messages; the jobs point at five distinct urls. -/
def fiveRecords : List SQSRecordM :=
  [ { messageId := "m1", job := { jobId := "j1", url := "https://one.example", skipLLM := false, priority := none, callbackUrl := none, submittedAt := "t0" } },
    { messageId := "m2", job := { jobId := "j2", url := "https://two.example", skipLLM := false, priority := none, callbackUrl := none, submittedAt := "t0" } },
    { messageId := "m3", job := { jobId := "j3", url := "https://three.example", skipLLM := false, priority := none, callbackUrl := none, submittedAt := "t0" } },
    { messageId := "m4", job := { jobId := "j4", url := "https://four.example", skipLLM := false, priority := none, callbackUrl := none, submittedAt := "t0" } },
    { messageId := "m5", job := { jobId := "j5", url := "https://five.example", skipLLM := false, priority := none, callbackUrl := none, submittedAt := "t0" } } ]

/-- A pipeline that throws only for the third url. -/
def failThirdPipeline : String → Except String PipelineSummary := fun url =>
  if url = "https://three.example" then Except.error "Navigation timeout" else Except.ok samplePipeOut

/-- C3 witness: in a batch of five where only message 3 throws, the handler
reports exactly m3 and acknowledges the rest. -/
theorem batchItemFailures_spec_witness :
    (consumerHandler (Except.ok ()) failThirdPipeline [] fiveRecords).2 = ["m3"] ∧
    ("m3" ∈ (consumerHandler (Except.ok ()) failThirdPipeline [] fiveRecords).2 ↔
      exceptOk (failThirdPipeline "https://three.example") = false) := by
  constructor
  · rw [batchItemFailures_spec.2.1 failThirdPipeline [] fiveRecords]
    decide
  · have h := batchItemFailures_spec.2.2 failThirdPipeline [] fiveRecords (by decide)
      { messageId := "m3", job := { jobId := "j3", url := "https://three.example", skipLLM := false, priority := none, callbackUrl := none, submittedAt := "t0" } }
      (by decide)
    exact h

/-! ### C4: the pending record at submission -/

/-- C4 (amended): a single-url submission accepted by POST /api/audit has
the pending record, keyed by the returned jobId, in the store paired with
the 202 response (the write happens before the response is built); batch
submissions never write to the store. -/
theorem submit_pending_record_spec :
    (∀ (st : List AuditRecordM) (q : List (AuditJobMessage × Nat)) (url : String)
       (skip : Bool) (jobId now : String),
      url ≠ "" →
      (postAudit st q (some url) true skip jobId now).2.2 =
        ApiResponse.accepted jobId ("/api/audit/" ++ jobId) ∧
      storeGet (postAudit st q (some url) true skip jobId now).1 jobId =
        some (pendingRecord jobId url now)) ∧
    (∀ (st : List AuditRecordM) (q : List (AuditJobMessage × Nat))
       (urlsOpt : Option (List String)) (skip : Bool) (batchId now : String),
      (postAuditBatch st q urlsOpt skip batchId now).1 = st) := by
  constructor
  · intro st q url skip jobId now hurl
    have hval : ¬¬True := not_not_intro trivial
    constructor
    · simp only [postAudit]
      rw [if_neg hurl, if_neg hval]
    · simp only [postAudit]
      rw [if_neg hurl, if_neg hval]
      exact storeGet_storePut_self st (pendingRecord jobId url now)
  · intro st q urlsOpt skip batchId now
    cases urlsOpt with
    | none => rfl
    | some urls =>
      simp only [postAuditBatch]
      split
      · rfl
      · split <;> rfl

/-- C4 counterexample: a batch submission of one url is accepted (202 with a
jobId) yet no pending record exists for that jobId: the immediate poll that
the claim guarantees will succeed finds the record absent. -/
theorem batch_submission_writes_no_pending :
    (postAuditBatch [] [] (some ["https://example.com"]) false "batch-1" "t0").2.2 =
      ApiResponse.acceptedBatch "batch-1" ["batch-1-0"] ∧
    storeGet (postAuditBatch [] [] (some ["https://example.com"]) false "batch-1" "t0").1
      "batch-1-0" = none := by
  constructor <;> decide

/-- C4 witness: the single-url clause instantiated on a concrete request. -/
theorem submit_pending_record_spec_witness :
    (postAudit [] [] (some "https://example.com") true false "audit-1" "t0").2.2 =
      ApiResponse.accepted "audit-1" "/api/audit/audit-1" ∧
    storeGet (postAudit [] [] (some "https://example.com") true false "audit-1" "t0").1
      "audit-1" = some (pendingRecord "audit-1" "https://example.com" "t0") := by
  have h := submit_pending_record_spec.1 [] [] "https://example.com" false "audit-1" "t0"
    (by decide)
  exact ⟨h.1.trans (by decide), h.2⟩

/-! ### C10: no failed status is ever written -/

theorem consumerLoop_store_unchanged (pipeline : String → Except String PipelineSummary)
    (j : String) :
    ∀ (records : List SQSRecordM) (st : List AuditRecordM),
      (∀ r ∈ records, r.job.jobId = j → exceptOk (pipeline r.job.url) = false) →
      storeGet (consumerLoop pipeline st records).1 j = storeGet st j := by
  intro records
  induction records with
  | nil => intro st _; rfl
  | cons r rs ih =>
    intro st hall
    have htail : ∀ r2 ∈ rs, r2.job.jobId = j → exceptOk (pipeline r2.job.url) = false :=
      fun r2 h2 => hall r2 (List.mem_cons_of_mem _ h2)
    cases hp : pipeline r.job.url with
    | error e =>
      simp only [consumerLoop, processRecordM, hp]
      exact ih st htail
    | ok out =>
      have hne : r.job.jobId ≠ j := by
        intro he
        have hf := hall r (List.mem_cons_self _ _) he
        rw [hp] at hf
        exact absurd hf (by simp [exceptOk])
      simp only [consumerLoop, processRecordM, hp]
      rw [ih _ htail]
      exact storeGet_storePut_ne st (mkAuditRecord r.job out) j (fun he => hne he.symm)

/-- C10 (amended): on processing failure the worker performs no write for
that job: if every delivery of job `j` in the batch fails, the store entry
for `j` is exactly what it was before the batch (the pending record
persists) — the record is never mutated to a `failed` status — and each
failing message id is reported in batchItemFailures for redelivery. -/
theorem failed_job_never_marked_failed :
    ∀ (pipeline : String → Except String PipelineSummary) (st : List AuditRecordM)
      (records : List SQSRecordM) (j : String),
      (∀ r ∈ records, r.job.jobId = j → exceptOk (pipeline r.job.url) = false) →
      storeGet (consumerHandler (Except.ok ()) pipeline st records).1 j = storeGet st j ∧
      (∀ r ∈ records, exceptOk (pipeline r.job.url) = false →
        r.messageId ∈ (consumerHandler (Except.ok ()) pipeline st records).2) := by
  intro pipeline st records j hall
  constructor
  · exact consumerLoop_store_unchanged pipeline j records st hall
  · intro r hr hnok
    rw [show (consumerHandler (Except.ok ()) pipeline st records).2 =
      (records.filter (fun r => !exceptOk (pipeline r.job.url))).map (fun r => r.messageId)
      from consumerLoop_failures pipeline records st]
    exact List.mem_map.mpr ⟨r, List.mem_filter.mpr ⟨hr, by simp [hnok]⟩, rfl⟩

/-- A pipeline that always throws (e.g. the navigation always times out). -/
def alwaysFailingPipeline : String → Except String PipelineSummary :=
  fun _ => Except.error "Navigation timeout of 30000 ms exceeded"

/-- The store holding only the pending record of job-1. -/
def pendingJob1Store : List AuditRecordM :=
  [pendingRecord "job-1" "https://example.com" "t0"]

/-- The single message redelivered for job-1. -/
def job1Record : SQSRecordM :=
  { messageId := "m1"
    job := { jobId := "job-1", url := "https://example.com", skipLLM := false
             priority := none, callbackUrl := none, submittedAt := "t0" } }

/-- The single-message batch redelivered for job-1. -/
def job1Records : List SQSRecordM := [job1Record]

/-- C10 counterexample: after three consecutive failing deliveries (the
default maxReceiveCount before the dead-letter queue), the job's record
still reads `pending` — it is never mutated to the terminal `failed` status
the claim requires a polling client to observe. -/
theorem failed_job_record_stays_pending :
    storeGet
      ((consumerHandler (Except.ok ()) alwaysFailingPipeline
        (consumerHandler (Except.ok ()) alwaysFailingPipeline
          (consumerHandler (Except.ok ()) alwaysFailingPipeline
            pendingJob1Store job1Records).1 job1Records).1 job1Records).1)
      "job-1" = some (pendingRecord "job-1" "https://example.com" "t0") ∧
    (pendingRecord "job-1" "https://example.com" "t0").complianceLevel = "pending" := by
  constructor <;> decide

/-- C10 witness: the amended claim instantiated on the single failing
delivery of job-1. -/
theorem failed_job_never_marked_failed_witness :
    storeGet (consumerHandler (Except.ok ()) alwaysFailingPipeline pendingJob1Store
      job1Records).1 "job-1" = storeGet pendingJob1Store "job-1" ∧
    "m1" ∈ (consumerHandler (Except.ok ()) alwaysFailingPipeline pendingJob1Store
      job1Records).2 := by
  have h := failed_job_never_marked_failed alwaysFailingPipeline pendingJob1Store
    job1Records "job-1" (by intro r hr he; fin_cases hr; decide)
  refine ⟨h.1, ?_⟩
  exact h.2 job1Record (by decide) (by decide)
